import Mathlib

/- Shallow embedding of
   genai-quickstart-pocs-python/amazon-bedrock-langfuse-evaluation/utils.py.

   The embedded fragments are the Langfuse trace-to-RAGAS-sample normalizer
   (process_traces, extract_span_components, match_trace_to_test_case) and the
   SEC 10-K batch ingestion orchestrator (process_company, process_companies).
   External effects (the Langfuse observations API, sec-api download, S3 upload,
   the filings query API) are passed in as function parameters; Python
   exceptions are modelled in the Except monad; logging, printing, timestamps
   and file writes are omitted as pure side effects. -/

namespace LangfuseEval

/-- Shapes a JSON-decoded Python value can take in the fields this module
inspects: None, bool, int, string, list, and string-keyed dict. -/
inductive PyVal where
  | PNone : PyVal
  | PBool : Bool → PyVal
  | PInt : Int → PyVal
  | PStr : String → PyVal
  | PList : List PyVal → PyVal
  | PDict : List (String × PyVal) → PyVal

/-- Python exceptions that can arise in the embedded fragments. -/
inductive PyErr where
  | typeError : PyErr
  | keyError : PyErr
  | indexError : PyErr
  | apiError : String → PyErr
deriving DecidableEq

/-- Python truthiness, bool(v). -/
def pyTruthy : PyVal → Bool
  | .PNone => false
  | .PBool b => b
  | .PInt n => n != 0
  | .PStr s => !s.isEmpty
  | .PList xs => !xs.isEmpty
  | .PDict es => !es.isEmpty

mutual
/-- String rendering standing in for Python str() on the values above. -/
def pyStr : PyVal → String
  | .PNone => "None"
  | .PBool b => if b then "True" else "False"
  | .PInt n => toString n
  | .PStr s => s
  | .PList xs => "[" ++ pyStrList xs ++ "]"
  | .PDict es => "\x7b" ++ pyStrDict es ++ "\x7d"

/-- Comma-separated rendering of the elements of a Python list. -/
def pyStrList : List PyVal → String
  | [] => ""
  | [x] => pyStr x
  | x :: xs => pyStr x ++ ", " ++ pyStrList xs

/-- Comma-separated rendering of the entries of a Python dict. -/
def pyStrDict : List (String × PyVal) → String
  | [] => ""
  | [(k, v)] => k ++ ": " ++ pyStr v
  | (k, v) :: es => k ++ ": " ++ pyStr v ++ ", " ++ pyStrDict es
end

/-- Python len(v); raises TypeError on unsized values. -/
def pyLen : PyVal → Except PyErr Nat
  | .PStr s => .ok s.length
  | .PList xs => .ok xs.length
  | .PDict es => .ok es.length
  | _ => .error .typeError

/-- Python v[0]: first element of a list, first character of a string; a
string-keyed dict has no key 0 (KeyError); other values raise TypeError. -/
def pyIndex0 : PyVal → Except PyErr PyVal
  | .PList [] => .error .indexError
  | .PList (x :: _) => .ok x
  | .PStr s =>
    match s.data with
    | [] => .error .indexError
    | c :: _ => .ok (.PStr ⟨[c]⟩)
  | .PDict _ => .error .keyError
  | _ => .error .typeError

/-- Lookup of a string key in a dict value (keys of a Python dict are unique,
so the first binding wins). -/
def dictGet : List (String × PyVal) → String → Option PyVal
  | [], _ => none
  | e :: es, k => if e.1 = k then some e.2 else dictGet es k

/-- Char-by-char lowercasing, standing in for Python str.lower(). -/
def strLower (s : String) : String := ⟨s.data.map Char.toLower⟩

/-- Whether the first list is a leading segment of the second. -/
def chPrefixEq : List Char → List Char → Bool
  | [], _ => true
  | _ :: _, [] => false
  | a :: as, b :: bs => a == b && chPrefixEq as bs

/-- Whether the second list occurs as a contiguous segment of the first. -/
def hasInfix : List Char → List Char → Bool
  | [], needle => needle.isEmpty
  | h :: hs, needle => chPrefixEq needle (h :: hs) || hasInfix hs needle

/-- Python (needle in hay) on strings: containment of a contiguous substring. -/
def strContains (hay needle : String) : Bool := hasInfix hay.data needle.data

/-- Python (key in v) for a string key: dict key membership, substring test on
strings, element equality on lists; raises TypeError on non-containers. -/
def pyContains (v : PyVal) (key : String) : Except PyErr Bool :=
  match v with
  | .PDict es => .ok (dictGet es key).isSome
  | .PStr s => .ok (strContains s key)
  | .PList xs => .ok (xs.any fun x => match x with | .PStr t => t == key | _ => false)
  | _ => .error .typeError

/-- Python v[key] for a string key: dict lookup (KeyError when missing); other
values raise TypeError. -/
def pyGetItem (v : PyVal) (key : String) : Except PyErr PyVal :=
  match v with
  | .PDict es =>
    match dictGet es key with
    | some x => .ok x
    | none => .error .keyError
  | _ => .error .typeError

/-- A Langfuse observation as consumed by extract_span_components: only name,
input and output are read; an absent attribute is modelled as none. -/
structure Observation where
  name : Option PyVal
  input : Option PyVal
  output : Option PyVal

/-- A Langfuse trace as consumed by the normalizer: its id, top-level input and
output, the identifiers of its observations, and its metadata. An absent
attribute is modelled as none. -/
structure Trace where
  id : String
  input : Option PyVal
  output : Option PyVal
  observations : List String
  metadata : Option PyVal

/-- One entry of the questions array of test_cases.json. -/
structure TestCase where
  query : String
  expected_answer : String
deriving DecidableEq

/-- One tool-usage record appended by extract_span_components. -/
structure ToolUsage where
  name : String
  input : Option PyVal
  output : Option PyVal

/-- The dictionary returned by extract_span_components. -/
structure Components where
  user_inputs : List String
  agent_responses : List String
  retrieved_contexts : List String
  tool_usages : List ToolUsage
  available_tools : PyVal

/-- One chat message of a multi-turn sample. -/
structure Message where
  role : String
  content : String
deriving DecidableEq

/-- The ragas MultiTurnSample as constructed by process_traces: the message
list and the (possibly absent) reference answer. -/
structure MultiTurnSample where
  user_input : List Message
  reference : Option String
deriving DecidableEq

/-- One entry of the trace_sample_mapping list built by process_traces. -/
structure MappingEntry where
  trace_id : String
  type : String
  index : Nat
deriving DecidableEq

/-- utils.match_trace_to_test_case: linear scan of the catalog; the answer of
the first test case whose lowercased query is a substring of the lowercased
user input; None when no entry matches. -/
def match_trace_to_test_case (user_input : String) : List TestCase → Option String
  | [] => none
  | tc :: rest =>
    if strContains (strLower user_input) (strLower tc.query)
    then some tc.expected_answer
    else match_trace_to_test_case user_input rest

/-- The user_inputs derivation of extract_span_components (utils.py 764-771):
a dict input with a truthy args value of positive length contributes the string
form of its first element and a dict with a falsey args value contributes
nothing; a dict without the key args, and any other non-None input, contributes
its string form; a string input is taken verbatim; an absent or None input
contributes nothing. -/
def extractUserInputs (inp : Option PyVal) : Except PyErr (List String) :=
  match inp with
  | none => .ok []
  | some .PNone => .ok []
  | some (.PDict es) =>
    match dictGet es "args" with
    | some args =>
      if pyTruthy args then
        match pyLen args with
        | .error e => .error e
        | .ok n =>
          if n > 0 then
            match pyIndex0 args with
            | .error e => .error e
            | .ok x => .ok [pyStr x]
          else .ok []
      else .ok []
    | none => .ok [pyStr (.PDict es)]
  | some (.PStr s) => .ok [s]
  | some v => .ok [pyStr v]

/-- The agent_responses derivation of extract_span_components (utils.py
773-777): a present, non-None output contributes one entry, taken verbatim for
strings and as its string form otherwise. -/
def extractAgentResponses (out : Option PyVal) : List String :=
  match out with
  | none => []
  | some .PNone => []
  | some (.PStr s) => [s]
  | some v => [pyStr v]

/-- Substitute None for a missing or falsey attribute, as in
(obs.input if hasattr(obs, ...) and obs.input else None). -/
def truthyAttr : Option PyVal → Option PyVal
  | some v => if pyTruthy v then some v else none
  | none => none

/-- The per-observation body of the observation loop (utils.py 786-798),
threading the (tool_usages, retrieved_contexts) accumulator pair. -/
def processObs (acc : List ToolUsage × List String) (obs : Observation) :
    List ToolUsage × List String :=
  match obs.name with
  | some nv =>
    if pyTruthy nv then
      let tool_name := pyStr nv
      let tool_input := truthyAttr obs.input
      let tool_output := truthyAttr obs.output
      let tus := acc.1 ++ [⟨tool_name, tool_input, tool_output⟩]
      match tool_output with
      | some out =>
        if strContains (strLower tool_name) "retrieve"
        then (tus, acc.2 ++ [pyStr out])
        else (tus, acc.2)
      | none => (tus, acc.2)
    else acc
  | none => acc

/-- The try-block around the observation loop (utils.py 780-800): the first
failing fetch raises inside the loop, the enclosing except swallows it, and the
identifiers after the failing one are never visited. -/
def fetchObsLoop (fetch : String → Except PyErr (List Observation)) :
    List String → List ToolUsage × List String → List ToolUsage × List String
  | [], acc => acc
  | obsId :: rest, acc =>
    match fetch obsId with
    | .ok obss => fetchObsLoop fetch rest (obss.foldl processObs acc)
    | .error _ => acc

/-- The available_tools derivation (utils.py 803-813): read
metadata.attributes and its agent.tools entry when that path exists; when any
check fails the local variable stays unset and the result defaults to an empty
list via the locals() test. -/
def extractAvailableTools (metadata : Option PyVal) : Except PyErr PyVal :=
  match metadata with
  | none => .ok (.PList [])
  | some m =>
    if pyTruthy m then
      match pyContains m "attributes" with
      | .error e => .error e
      | .ok false => .ok (.PList [])
      | .ok true =>
        match pyGetItem m "attributes" with
        | .error e => .error e
        | .ok attrs =>
          match pyContains attrs "agent.tools" with
          | .error e => .error e
          | .ok false => .ok (.PList [])
          | .ok true => pyGetItem attrs "agent.tools"
    else .ok (.PList [])

/-- utils.extract_span_components as a function of the observation fetcher and
the trace; uncaught Python exceptions (from ill-shaped input or metadata) are
the error case of the Except monad, while fetch failures are handled inside
fetchObsLoop. -/
def extract_span_components (fetch : String → Except PyErr (List Observation))
    (trace : Trace) : Except PyErr Components :=
  match extractUserInputs trace.input with
  | .error e => .error e
  | .ok user_inputs =>
    let agent_responses := extractAgentResponses trace.output
    let otc := fetchObsLoop fetch trace.observations ([], [])
    match extractAvailableTools trace.metadata with
    | .error e => .error e
    | .ok available_tools =>
      .ok ⟨user_inputs, agent_responses, otc.2, otc.1, available_tools⟩

/-- The turn interleaving loop of process_traces (utils.py 727-732): for each
index below the longer length, append the user turn when present, then the
assistant turn when present. -/
def buildMessages (user_inputs agent_responses : List String) : List Message :=
  (List.range (max user_inputs.length agent_responses.length)).foldl
    (fun messages i =>
      let messages :=
        match user_inputs.get? i with
        | some u => messages ++ [⟨"user", u⟩]
        | none => messages
      match agent_responses.get? i with
      | some r => messages ++ [⟨"assistant", r⟩]
      | none => messages)
    []

/-- The for-loop of utils.process_traces (utils.py 717-747) with the two result
lists as explicit accumulators. -/
def processTracesLoop (fetch : String → Except PyErr (List Observation))
    (test_cases : List TestCase) :
    List Trace → List MultiTurnSample → List MappingEntry →
    Except PyErr (List MultiTurnSample × List MappingEntry)
  | [], samples, mapping => .ok (samples, mapping)
  | trace :: rest, samples, mapping =>
    match extract_span_components fetch trace with
    | .error e => .error e
    | .ok components =>
      if components.user_inputs.isEmpty then
        processTracesLoop fetch test_cases rest samples mapping
      else
        let first_user_input := components.user_inputs.headD ""
        let messages := buildMessages components.user_inputs components.agent_responses
        let expected_answer := match_trace_to_test_case first_user_input test_cases
        let samples2 := samples ++ [⟨messages, expected_answer⟩]
        let mapping2 := mapping ++ [⟨trace.id, "multi_turn", samples2.length - 1⟩]
        processTracesLoop fetch test_cases rest samples2 mapping2

/-- utils.process_traces: the test_cases parameter stands for the catalog read
by load_test_cases() and fetch for the Langfuse observations API. -/
def process_traces (fetch : String → Except PyErr (List Observation))
    (test_cases : List TestCase) (traces : List Trace) :
    Except PyErr (List MultiTurnSample × List MappingEntry) :=
  processTracesLoop fetch test_cases traces [] []

/-- Whether a trace contributes a sample in process_traces: its extraction
succeeded and produced at least one user input. -/
def traceKept (fetch : String → Except PyErr (List Observation)) (trace : Trace) :
    Bool :=
  match extract_span_components fetch trace with
  | .ok components => !components.user_inputs.isEmpty
  | .error _ => false

/-- The sample a kept trace contributes in process_traces. -/
def sampleOfTrace (fetch : String → Except PyErr (List Observation))
    (test_cases : List TestCase) (trace : Trace) : MultiTurnSample :=
  match extract_span_components fetch trace with
  | .ok components =>
    ⟨buildMessages components.user_inputs components.agent_responses,
     match_trace_to_test_case (components.user_inputs.headD "") test_cases⟩
  | .error _ => ⟨[], none⟩

/-- The mapping entries of a run of kept traces, indices starting at i. -/
def mappingFrom (i : Nat) : List Trace → List MappingEntry
  | [] => []
  | trace :: rest => ⟨trace.id, "multi_turn", i⟩ :: mappingFrom (i + 1) rest

/-- The turns contributed at one index position of the interleaving: the user
turn when the index is within user_inputs, then the assistant turn when it is
within agent_responses; a missing side contributes no turn. -/
def turnsAt (user_inputs agent_responses : List String) (i : Nat) : List Message :=
  (match user_inputs.get? i with
   | some u => [⟨"user", u⟩]
   | none => []) ++
  (match agent_responses.get? i with
   | some r => [⟨"assistant", r⟩]
   | none => [])

/-- One SEC filing record, with the three keys utils.py reads; a missing field
stands for a record without that key, whose access raises KeyError. -/
structure Filing where
  linkToFilingDetails : Option String
  periodOfReport : Option String
  accessionNo : Option String

/-- The per-company results dictionary built by process_company. -/
structure CompanyResult where
  symbol : String
  total_filings : Nat
  downloaded : Nat
  uploaded : Nat
  errors : List String
deriving DecidableEq

/-- Reading the accessionNo key of a filing (KeyError when absent). -/
def accessionOf (filing : Filing) : Except PyErr String :=
  match filing.accessionNo with
  | some a => .ok a
  | none => .error .keyError

/-- The try/except body of the per-filing loop of utils.process_company
(utils.py 500-525). The download parameter stands for download_filing, which
returns the local path or None on failure, and upload for upload_to_s3, which
returns a success flag; both catch their own exceptions internally. A KeyError
on a missing filing key is caught by the per-filing except, whose handler then
reads accessionNo itself and so re-raises when that key is also missing. -/
def process_filing (download : String → Filing → Option String)
    (upload : String → String → String → String → Bool)
    (bucket symbol : String) (r : CompanyResult) (filing : Filing) :
    Except PyErr CompanyResult :=
  match filing.linkToFilingDetails with
  | none =>
    match accessionOf filing with
    | .error e => .error e
    | .ok acc =>
      .ok { r with errors := r.errors ++ ["Error processing filing " ++ acc ++ ": KeyError"] }
  | some url =>
    match download url filing with
    | some local_file_path =>
      let r2 := { r with downloaded := r.downloaded + 1 }
      match filing.periodOfReport with
      | none =>
        match accessionOf filing with
        | .error e => .error e
        | .ok acc =>
          .ok { r2 with errors := r2.errors ++ ["Error processing filing " ++ acc ++ ": KeyError"] }
      | some por =>
        let year := por.take 4
        if upload bucket local_file_path symbol year
        then .ok { r2 with uploaded := r2.uploaded + 1 }
        else .ok { r2 with errors := r2.errors ++ ["Failed to upload " ++ local_file_path] }
    | none =>
      match accessionOf filing with
      | .error e => .error e
      | .ok acc =>
        .ok { r with errors := r.errors ++ ["Failed to download filing " ++ acc] }

/-- The per-filing loop of process_company. -/
def processFilings (download : String → Filing → Option String)
    (upload : String → String → String → String → Bool)
    (bucket symbol : String) :
    List Filing → CompanyResult → Except PyErr CompanyResult
  | [], r => .ok r
  | filing :: rest, r =>
    match process_filing download upload bucket symbol r filing with
    | .error e => .error e
    | .ok r2 => processFilings download upload bucket symbol rest r2

/-- utils.process_company (utils.py 465-527), given the filings list returned
by the filings source get_filings. -/
def process_company (download : String → Filing → Option String)
    (upload : String → String → String → String → Bool)
    (bucket symbol : String) (filings : List Filing) : Except PyErr CompanyResult :=
  let results : CompanyResult := ⟨symbol, filings.length, 0, 0, []⟩
  if filings.isEmpty then
    .ok { results with errors := ["No 10K filings found for " ++ symbol] }
  else processFilings download upload bucket symbol filings results

/-- utils.get_filings given the filings-query API response: the debug print of
the first response filing raises IndexError when the response holds none. -/
def get_filings (queryApi : String → Except PyErr (List Filing)) (symbol : String) :
    Except PyErr (List Filing) :=
  match queryApi symbol with
  | .error e => .error e
  | .ok [] => .error .indexError
  | .ok filings => .ok filings

/-- The overall_results dictionary of process_companies (timestamps and the
results file write omitted). -/
structure OverallResults where
  companies_processed : Nat
  total_filings_found : Nat
  total_downloaded : Nat
  total_uploaded : Nat
  company_results : List (String × CompanyResult)

/-- Python dict assignment d[k] = v on a string-keyed dict kept as an ordered
association list: overwrite the binding in place when the key exists, else
append a new binding. -/
def setEntry : List (String × CompanyResult) → String → CompanyResult →
    List (String × CompanyResult)
  | [], k, v => [(k, v)]
  | e :: rest, k, v => if e.1 = k then (k, v) :: rest else e :: setEntry rest k v

/-- Python dict lookup d.get(k) on the same representation. -/
def getEntry : List (String × CompanyResult) → String → Option CompanyResult
  | [], _ => none
  | e :: rest, k => if e.1 = k then some e.2 else getEntry rest k

/-- The try-block body of the per-symbol loop of process_companies: fetch the
filings through get_filings, then run process_company on them. -/
def runCompany (download : String → Filing → Option String)
    (upload : String → String → String → String → Bool)
    (queryApi : String → Except PyErr (List Filing))
    (bucket symbol : String) : Except PyErr CompanyResult :=
  match get_filings queryApi symbol with
  | .error e => .error e
  | .ok filings => process_company download upload bucket symbol filings

/-- Rendering of a Python exception inside an error message. -/
def pyErrMsg : PyErr → String
  | .typeError => "TypeError"
  | .keyError => "KeyError"
  | .indexError => "IndexError"
  | .apiError s => s

/-- The result entry a symbol receives in process_companies: the per-company
results on success, and on an exception the zero-count entry built by the
per-symbol except handler (utils.py 614-624). -/
def companyOutcome (download : String → Filing → Option String)
    (upload : String → String → String → String → Bool)
    (queryApi : String → Except PyErr (List Filing))
    (bucket symbol : String) : CompanyResult :=
  match runCompany download upload queryApi bucket symbol with
  | .ok results => results
  | .error e =>
    ⟨symbol, 0, 0, 0, ["Error processing company " ++ symbol ++ ": " ++ pyErrMsg e]⟩

/-- The per-symbol loop of utils.process_companies (utils.py 594-624): run each
company inside a try, record its results and update the aggregate counters, and
on an exception record a zero-count entry with the failure reason instead. -/
def processCompaniesLoop (download : String → Filing → Option String)
    (upload : String → String → String → String → Bool)
    (queryApi : String → Except PyErr (List Filing)) (bucket : String) :
    List String → OverallResults → OverallResults
  | [], o => o
  | symbol :: rest, o =>
    let o2 :=
      match runCompany download upload queryApi bucket symbol with
      | .ok results =>
        { o with
          company_results := setEntry o.company_results symbol results
          companies_processed := o.companies_processed + 1
          total_filings_found := o.total_filings_found + results.total_filings
          total_downloaded := o.total_downloaded + results.downloaded
          total_uploaded := o.total_uploaded + results.uploaded }
      | .error e =>
        { o with
          company_results := setEntry o.company_results symbol
            ⟨symbol, 0, 0, 0,
             ["Error processing company " ++ symbol ++ ": " ++ pyErrMsg e]⟩ }
    processCompaniesLoop download upload queryApi bucket rest o2

/-- utils.process_companies (utils.py 566-632): the batch orchestrator over a
list of company symbols. -/
def process_companies (download : String → Filing → Option String)
    (upload : String → String → String → String → Bool)
    (queryApi : String → Except PyErr (List Filing)) (bucket : String)
    (symbols : List String) : OverallResults :=
  processCompaniesLoop download upload queryApi bucket symbols ⟨0, 0, 0, 0, []⟩

/- Helper lemmas shared by several developments. -/

/-- An empty needle occurs in every character list. -/
theorem hasInfix_nil_needle (l : List Char) : hasInfix l [] = true := by
  induction l with
  | nil => rfl
  | cons c cs ih => simp [hasInfix, chPrefixEq, ih]

/-- Python substring containment of the empty string always holds. -/
theorem strContains_empty_needle (s : String) : strContains s "" = true :=
  hasInfix_nil_needle s.data

/-- C3: for every user_input and catalog, match_trace_to_test_case returns the
expected_answer of the first catalog entry, in catalog order, whose lowercased
query is a substring of the lowercased user_input, and None (no error) when no
entry matches; when two entries match, the earlier-listed one wins because the
scan is first-match. The spec examples are included. -/
theorem C3_match_first_in_order :
    (∀ (user_input : String) (test_cases : List TestCase),
      match_trace_to_test_case user_input test_cases =
        (test_cases.find? fun tc =>
          strContains (strLower user_input) (strLower tc.query)).map
          TestCase.expected_answer)
    ∧ match_trace_to_test_case "What is the revenue?" [⟨"revenue", "42"⟩] = some "42"
    ∧ match_trace_to_test_case "unrelated" [⟨"revenue", "42"⟩] = none := by
  refine ⟨?_, rfl, rfl⟩
  intro user_input test_cases
  induction test_cases with
  | nil => rfl
  | cons tc rest ih =>
    by_cases h : strContains (strLower user_input) (strLower tc.query)
    · simp [match_trace_to_test_case, List.find?_cons, h]
    · simp [match_trace_to_test_case, List.find?_cons, h, ih]

/-- C9: a catalog containing an entry with the empty query never yields an
absent answer, because the lowercased empty string is a substring of every
lowercased user input, so the scan returns the answer of some entry at latest
at the first empty-query one. -/
theorem C9_empty_query_always_matches (user_input : String)
    (test_cases : List TestCase)
    (h : ∃ tc ∈ test_cases, tc.query = "") :
    (match_trace_to_test_case user_input test_cases).isSome = true := by
  induction test_cases with
  | nil => simp at h
  | cons tc rest ih =>
    by_cases hc : strContains (strLower user_input) (strLower tc.query)
    · simp [match_trace_to_test_case, hc]
    · obtain ⟨tc2, htc2, hq⟩ := h
      rcases List.mem_cons.mp htc2 with heq | hmem
      · exfalso
        rw [heq] at hq
        rw [hq] at hc
        exact hc (strContains_empty_needle (strLower user_input))
      · simp only [match_trace_to_test_case, hc, if_false]
        exact ih ⟨tc2, hmem, hq⟩

/-- Witness for C9 at a concrete catalog holding an empty-query entry. -/
theorem C9_empty_query_always_matches_witness :
    (match_trace_to_test_case "anything" [⟨"", "fallback"⟩]).isSome = true :=
  C9_empty_query_always_matches "anything" [⟨"", "fallback"⟩]
    ⟨⟨"", "fallback"⟩, by simp, rfl⟩

/-- C2: the turns built by process_traces are the concatenation, over the
indices below max(len(user_inputs), len(agent_responses)), of the user turn at
that index when present followed by the assistant turn at that index when
present; a missing side contributes no turn and no padding. The spec instance
user_inputs = [a, b], agent_responses = [x] gives [user a, assistant x, user b]. -/
theorem C2_turn_interleaving :
    (∀ user_inputs agent_responses : List String,
      buildMessages user_inputs agent_responses =
        ((List.range (max user_inputs.length agent_responses.length)).map
          (turnsAt user_inputs agent_responses)).flatten)
    ∧ buildMessages ["a", "b"] ["x"] =
        [⟨"user", "a"⟩, ⟨"assistant", "x"⟩, ⟨"user", "b"⟩] := by
  refine ⟨?_, by decide⟩
  intro us rs
  have hgen : ∀ (f : List Message → Nat → List Message),
      (∀ acc i, f acc i = acc ++ turnsAt us rs i) →
      ∀ (l : List Nat) (acc : List Message),
        l.foldl f acc = acc ++ (l.map (turnsAt us rs)).flatten := by
    intro f hf l
    induction l with
    | nil => intro acc; simp
    | cons i l ih =>
      intro acc
      rw [List.foldl_cons, ih, hf]
      simp [List.append_assoc]
  have happ : ∀ (acc : List Message) (i : Nat),
      (fun messages i =>
        let messages :=
          match us.get? i with
          | some u => messages ++ [⟨"user", u⟩]
          | none => messages
        match rs.get? i with
        | some r => messages ++ [⟨"assistant", r⟩]
        | none => messages) acc i = acc ++ turnsAt us rs i := by
    intro acc i
    simp only [turnsAt, List.get?_eq_getElem?]
    cases hu : us[i]? <;> cases hr : rs[i]? <;>
      simp [hu, hr, List.append_assoc]
  simpa [buildMessages] using
    hgen _ happ (List.range (max us.length rs.length)) []

/-- C5 counterexample: for the input mapping holding an empty list under the
key args, the derived user_inputs is empty — the dict-with-args branch is
taken and its inner truthiness test fails with no else — whereas the claim's
catch-all clause prescribes the singleton string form of the mapping. -/
theorem C5_counterexample :
    extractUserInputs (some (.PDict [("args", .PList [])])) = .ok []
    ∧ ¬ (extractUserInputs (some (.PDict [("args", .PList [])]))
          = .ok [pyStr (.PDict [("args", .PList [])])]) := by
  refine ⟨rfl, ?_⟩
  intro h
  have h0 : extractUserInputs (some (.PDict [("args", .PList [])])) = .ok [] := rfl
  rw [h0] at h
  simp at h

/-- C5 (amended): the derived user_inputs has length at most one; a mapping
input with a non-empty list under key args contributes the string form of its
first element; a mapping whose args value is falsey (such as the empty list)
contributes nothing; a mapping without the key args contributes the string
form of the mapping; a string input is taken verbatim; other present, non-None
inputs contribute their string form; an absent or None input contributes
nothing. -/
theorem C5_user_inputs_derivation :
    (∀ (inp : Option PyVal) (l : List String),
      extractUserInputs inp = .ok l → l.length ≤ 1)
    ∧ (∀ (es : List (String × PyVal)) (x : PyVal) (xs : List PyVal),
        dictGet es "args" = some (.PList (x :: xs)) →
        extractUserInputs (some (.PDict es)) = .ok [pyStr x])
    ∧ (∀ (es : List (String × PyVal)) (args : PyVal),
        dictGet es "args" = some args → pyTruthy args = false →
        extractUserInputs (some (.PDict es)) = .ok [])
    ∧ (∀ es : List (String × PyVal), dictGet es "args" = none →
        extractUserInputs (some (.PDict es)) = .ok [pyStr (.PDict es)])
    ∧ (∀ s : String, extractUserInputs (some (.PStr s)) = .ok [s])
    ∧ (∀ n : Int, extractUserInputs (some (.PInt n)) = .ok [pyStr (.PInt n)])
    ∧ (∀ xs : List PyVal, extractUserInputs (some (.PList xs)) = .ok [pyStr (.PList xs)])
    ∧ extractUserInputs none = .ok []
    ∧ extractUserInputs (some .PNone) = .ok [] := by
  refine ⟨?_, ?_, ?_, ?_, fun s => rfl, fun n => rfl, fun xs => rfl, rfl, rfl⟩
  · intro inp l h
    rcases inp with _ | (_ | b | n | s | xs | es) <;>
      simp only [extractUserInputs] at h
    all_goals try (injection h with h2; subst h2; simp)
    repeat' split at h
    all_goals first
      | (injection h with h2; subst h2; simp)
      | injection h
  · intro es x xs hd
    simp only [extractUserInputs, hd, pyTruthy, pyLen, pyIndex0]
    simp
  · intro es args hd ht
    simp only [extractUserInputs, hd, ht]
    simp
  · intro es hd
    simp only [extractUserInputs, hd]

/-- Witness for C5 (amended) at concrete inputs for each hypothesised clause. -/
theorem C5_user_inputs_derivation_witness :
    extractUserInputs (some (.PDict [("args", .PList [.PInt 7, .PStr "z"])]))
      = .ok [pyStr (.PInt 7)]
    ∧ extractUserInputs (some (.PDict [("args", .PList [])])) = .ok []
    ∧ extractUserInputs (some (.PDict [("k", .PStr "v")]))
      = .ok [pyStr (.PDict [("k", .PStr "v")])]
    ∧ extractUserInputs (some (.PStr "hello")) = .ok ["hello"]
    ∧ (1 : Nat) ≤ 1 :=
  ⟨C5_user_inputs_derivation.2.1 [("args", .PList [.PInt 7, .PStr "z"])]
      (.PInt 7) [.PStr "z"] rfl,
   C5_user_inputs_derivation.2.2.1 [("args", .PList [])] (.PList []) rfl rfl,
   C5_user_inputs_derivation.2.2.2.1 [("k", .PStr "v")] rfl,
   C5_user_inputs_derivation.2.2.2.2.1 "hello",
   C5_user_inputs_derivation.1 (some (.PStr "hello")) ["hello"]
     (C5_user_inputs_derivation.2.2.2.2.1 "hello")⟩

/-- C6: a successfully fetched observation with a truthy name appends exactly
one tool-usage record, with None substituted for a missing or falsey input or
output; when additionally the lowercased name contains the substring retrieve
and the output is non-empty, the string form of the output is appended to
retrieved_contexts; a non-retrieve name or an empty output leaves
retrieved_contexts unchanged, and an absent or falsey name leaves both lists
unchanged. The spec instances RetrieveDocs and Summarize are included. -/
theorem C6_observation_capture :
    (∀ (acc : List ToolUsage × List String) (obs : Observation) (nv : PyVal),
      obs.name = some nv → pyTruthy nv = true →
      (processObs acc obs).1 =
        acc.1 ++ [⟨pyStr nv, truthyAttr obs.input, truthyAttr obs.output⟩])
    ∧ (∀ (acc : List ToolUsage × List String) (obs : Observation) (nv out : PyVal),
        obs.name = some nv → pyTruthy nv = true →
        truthyAttr obs.output = some out →
        strContains (strLower (pyStr nv)) "retrieve" = true →
        (processObs acc obs).2 = acc.2 ++ [pyStr out])
    ∧ (∀ (acc : List ToolUsage × List String) (obs : Observation) (nv : PyVal),
        obs.name = some nv → pyTruthy nv = true →
        strContains (strLower (pyStr nv)) "retrieve" = false →
        (processObs acc obs).2 = acc.2)
    ∧ (∀ (acc : List ToolUsage × List String) (obs : Observation) (nv : PyVal),
        obs.name = some nv → pyTruthy nv = true →
        truthyAttr obs.output = none →
        (processObs acc obs).2 = acc.2)
    ∧ (∀ (acc : List ToolUsage × List String) (obs : Observation),
        obs.name = none → processObs acc obs = acc)
    ∧ (∀ (acc : List ToolUsage × List String) (obs : Observation) (nv : PyVal),
        obs.name = some nv → pyTruthy nv = false → processObs acc obs = acc)
    ∧ processObs ([], []) ⟨some (.PStr "RetrieveDocs"), none, some (.PStr "docs")⟩
        = ([⟨"RetrieveDocs", none, some (.PStr "docs")⟩], ["docs"])
    ∧ processObs ([], []) ⟨some (.PStr "Summarize"), none, some (.PStr "sum")⟩
        = ([⟨"Summarize", none, some (.PStr "sum")⟩], []) := by
  refine ⟨?_, ?_, ?_, ?_, ?_, ?_, rfl, rfl⟩
  · intro acc obs nv hn ht
    simp only [processObs, hn, ht, if_true]
    cases truthyAttr obs.output with
    | none => rfl
    | some out =>
      by_cases hc : strContains (strLower (pyStr nv)) "retrieve" <;> simp [hc]
  · intro acc obs nv out hn ht hout hc
    simp only [processObs, hn, ht, if_true, hout, hc]
  · intro acc obs nv hn ht hc
    simp only [processObs, hn, ht, if_true, hc]
    cases truthyAttr obs.output with
    | none => rfl
    | some out => simp [hc]
  · intro acc obs nv hn ht hout
    simp only [processObs, hn, ht, if_true, hout]
  · intro acc obs hn
    simp only [processObs, hn]
  · intro acc obs nv hn ht
    simp [processObs, hn, ht]

/-- Witness for C6 at a concrete observation with a truthy retrieve name. -/
theorem C6_observation_capture_witness :
    (processObs ([], ["old"]) ⟨some (.PStr "RetrieveDocs"), some (.PStr "in"),
        some (.PStr "docs")⟩).1 =
      [⟨pyStr (.PStr "RetrieveDocs"),
        truthyAttr (some (.PStr "in")), truthyAttr (some (.PStr "docs"))⟩]
    ∧ (processObs ([], ["old"]) ⟨some (.PStr "RetrieveDocs"), some (.PStr "in"),
        some (.PStr "docs")⟩).2 = ["old", pyStr (.PStr "docs")]
    ∧ (processObs ([], []) ⟨some (.PStr "Summarize"), none, some (.PStr "sum")⟩).2 = []
    ∧ processObs ([⟨"t", none, none⟩], []) ⟨none, some (.PStr "x"), none⟩
        = ([⟨"t", none, none⟩], [])
    ∧ processObs ([], []) ⟨some (.PStr ""), none, none⟩ = ([], []) :=
  ⟨C6_observation_capture.1 ([], ["old"])
      ⟨some (.PStr "RetrieveDocs"), some (.PStr "in"), some (.PStr "docs")⟩
      (.PStr "RetrieveDocs") rfl rfl,
   C6_observation_capture.2.1 ([], ["old"])
      ⟨some (.PStr "RetrieveDocs"), some (.PStr "in"), some (.PStr "docs")⟩
      (.PStr "RetrieveDocs") (.PStr "docs") rfl rfl rfl rfl,
   C6_observation_capture.2.2.1 ([], [])
      ⟨some (.PStr "Summarize"), none, some (.PStr "sum")⟩
      (.PStr "Summarize") rfl rfl rfl,
   C6_observation_capture.2.2.2.2.1 ([⟨"t", none, none⟩], [])
      ⟨none, some (.PStr "x"), none⟩ rfl,
   C6_observation_capture.2.2.2.2.2.1 ([], []) ⟨some (.PStr ""), none, none⟩
      (.PStr "") rfl rfl⟩

/-- A fetcher failing exactly on identifier o1, succeeding elsewhere with one
observation carrying a non-empty name. -/
def failFirstFetch : String → Except PyErr (List Observation) :=
  fun obsId =>
    if obsId = "o1" then .error (.apiError "API error")
    else .ok [⟨some (.PStr "ToolA"), none, some (.PStr "outA")⟩]

/-- A fetcher failing exactly on identifier o3, succeeding elsewhere with one
observation carrying a non-empty name. -/
def failLastFetch : String → Except PyErr (List Observation) :=
  fun obsId =>
    if obsId = "o3" then .error (.apiError "API error")
    else .ok [⟨some (.PStr "ToolA"), none, some (.PStr "outA")⟩]

/-- A trace with a string user input and observation identifiers o1, o2, o3. -/
def threeObsTrace : Trace :=
  ⟨"t1", some (.PStr "q"), some (.PStr "resp"), ["o1", "o2", "o3"], none⟩

/-- C4 counterexample: with three observation identifiers where only the first
fetch fails and the other two succeed with non-empty names, the single try
around the whole loop aborts at the first identifier, so no tool-usage entry at
all is recorded — not the two entries the claim requires. -/
theorem C4_counterexample :
    (extract_span_components failFirstFetch threeObsTrace).map
      (fun c => c.tool_usages.length) = .ok 0
    ∧ ¬ ((extract_span_components failFirstFetch threeObsTrace).map
      (fun c => c.tool_usages.length) = .ok 2) := by
  refine ⟨rfl, ?_⟩
  intro h
  have h0 : (extract_span_components failFirstFetch threeObsTrace).map
      (fun c => c.tool_usages.length) = .ok 0 := rfl
  rw [h0] at h
  simp at h

/-- C4 (amended): a fetch failure at an observation identifier stops the
observation loop, so entries are recorded exactly for the identifiers
preceding the first failing one and the failing identifier and all later ones
contribute nothing; extraction still returns, and when the failing identifier
is the last of three the other two observations are both recorded and the
trace still produces a sample given its user input. -/
theorem C4_fetch_failure_keeps_preceding :
    (∀ (fetch : String → Except PyErr (List Observation)) (e : PyErr)
       (pre : List String) (failId : String) (post : List String)
       (acc : List ToolUsage × List String),
      fetch failId = .error e →
      fetchObsLoop fetch (pre ++ failId :: post) acc = fetchObsLoop fetch pre acc)
    ∧ (extract_span_components failLastFetch threeObsTrace).map
        (fun c => (c.user_inputs, c.tool_usages.length)) = .ok (["q"], 2)
    ∧ process_traces failLastFetch [] [threeObsTrace] =
        .ok ([⟨[⟨"user", "q"⟩, ⟨"assistant", "resp"⟩], none⟩],
             [⟨"t1", "multi_turn", 0⟩]) := by
  refine ⟨?_, rfl, rfl⟩
  intro fetch e pre failId post acc hfail
  induction pre generalizing acc with
  | nil => simp [fetchObsLoop, hfail]
  | cons p ps ih =>
    simp only [List.cons_append, fetchObsLoop]
    cases fetch p with
    | ok obss => exact ih _
    | error e2 => rfl

/-- Witness for C4 (amended): the loop with a failing first identifier of
three equals the loop over the empty preceding run. -/
theorem C4_fetch_failure_keeps_preceding_witness :
    fetchObsLoop failFirstFetch ["o1", "o2", "o3"] ([], []) =
      fetchObsLoop failFirstFetch [] ([], []) :=
  C4_fetch_failure_keeps_preceding.1 failFirstFetch (.apiError "API error")
    [] "o1" ["o2", "o3"] ([], []) rfl

/-- C7 counterexample: extraction is not exception-free for every input shape:
a dict input whose args value is a truthy int raises an uncaught TypeError at
len(trace.input['args']), so no ComponentSet is returned. -/
theorem C7_counterexample :
    extract_span_components (fun _ => .ok [])
        ⟨"t1", some (.PDict [("args", .PInt 5)]), none, [], none⟩
      = .error .typeError
    ∧ ¬ ∃ c, extract_span_components (fun _ => .ok [])
        ⟨"t1", some (.PDict [("args", .PInt 5)]), none, [], none⟩ = .ok c := by
  refine ⟨rfl, ?_⟩
  rintro ⟨c, hc⟩
  have h0 : extract_span_components (fun _ => .ok [])
      ⟨"t1", some (.PDict [("args", .PInt 5)]), none, [], none⟩
      = .error .typeError := rfl
  rw [h0] at hc
  exact Except.noConfusion hc

/-- C7 (amended): for every observation fetcher, including one failing on some
or all identifiers, and every trace whose input and metadata derivations are
themselves exception-free, extraction returns a ComponentSet, with fetch
failures only truncating the context and tool lists; and a batch run of
process_traces over such traces is never aborted by fetch failures. Only an
ill-shaped input or metadata value (as in the counterexample) can raise. -/
theorem C7_extraction_total :
    (∀ (fetch : String → Except PyErr (List Observation)) (trace : Trace),
      (∃ l, extractUserInputs trace.input = .ok l) →
      (∃ v, extractAvailableTools trace.metadata = .ok v) →
      ∃ c, extract_span_components fetch trace = .ok c)
    ∧ (∀ (fetch : String → Except PyErr (List Observation))
        (test_cases : List TestCase) (traces : List Trace),
        (∀ t ∈ traces, (∃ l, extractUserInputs t.input = .ok l) ∧
          (∃ v, extractAvailableTools t.metadata = .ok v)) →
        ∃ res, process_traces fetch test_cases traces = .ok res) := by
  have hext : ∀ (fetch : String → Except PyErr (List Observation)) (trace : Trace),
      (∃ l, extractUserInputs trace.input = .ok l) →
      (∃ v, extractAvailableTools trace.metadata = .ok v) →
      ∃ c, extract_span_components fetch trace = .ok c := by
    rintro fetch trace ⟨l, hl⟩ ⟨v, hv⟩
    exact ⟨⟨l, extractAgentResponses trace.output,
        (fetchObsLoop fetch trace.observations ([], [])).2,
        (fetchObsLoop fetch trace.observations ([], [])).1, v⟩,
      by simp only [extract_span_components, hl, hv]⟩
  refine ⟨hext, ?_⟩
  intro fetch tcs traces h
  suffices hloop : ∀ ts : List Trace,
      (∀ t ∈ ts, (∃ l, extractUserInputs t.input = .ok l) ∧
        (∃ v, extractAvailableTools t.metadata = .ok v)) →
      ∀ samples mapping,
        ∃ res, processTracesLoop fetch tcs ts samples mapping = .ok res by
    exact hloop traces h [] []
  intro ts
  induction ts with
  | nil => exact fun _ samples mapping => ⟨(samples, mapping), rfl⟩
  | cons t ts ih =>
    intro h2 samples mapping
    obtain ⟨c, hc⟩ := hext fetch t (h2 t (by simp)).1 (h2 t (by simp)).2
    have ih2 := ih fun t2 ht2 => h2 t2 (by simp [ht2])
    by_cases hemp : c.user_inputs.isEmpty
    · obtain ⟨res, hres⟩ := ih2 samples mapping
      exact ⟨res, by simp only [processTracesLoop, hc, hemp, if_true]; exact hres⟩
    · obtain ⟨res, hres⟩ := ih2
        (samples ++ [(⟨buildMessages c.user_inputs c.agent_responses,
          match_trace_to_test_case (c.user_inputs.headD "") tcs⟩ : MultiTurnSample)])
        (mapping ++ [(⟨t.id, "multi_turn",
          (samples ++ [(⟨buildMessages c.user_inputs c.agent_responses,
            match_trace_to_test_case (c.user_inputs.headD "") tcs⟩ :
              MultiTurnSample)]).length - 1⟩ : MappingEntry)])
      exact ⟨res, by simp only [processTracesLoop, hc, hemp, if_false]; exact hres⟩

/-- Witness for C7 (amended) at a concrete trace and failing fetcher. -/
theorem C7_extraction_total_witness :
    (∃ c, extract_span_components failFirstFetch threeObsTrace = .ok c)
    ∧ ∃ res, process_traces failFirstFetch [] [threeObsTrace] = .ok res :=
  ⟨C7_extraction_total.1 failFirstFetch threeObsTrace ⟨["q"], rfl⟩ ⟨.PList [], rfl⟩,
   C7_extraction_total.2 failFirstFetch [] [threeObsTrace] (by
     intro t ht
     rw [List.mem_singleton] at ht
     subst ht
     exact ⟨⟨["q"], rfl⟩, ⟨.PList [], rfl⟩⟩)⟩

/-- mappingFrom produces one entry per kept trace. -/
theorem mappingFrom_length (i : Nat) (l : List Trace) :
    (mappingFrom i l).length = l.length := by
  induction l generalizing i with
  | nil => rfl
  | cons t ts ih => simp [mappingFrom, ih]

/-- The j-th entry of mappingFrom carries the j-th trace id, the type
multi_turn, and the index i + j. -/
theorem mappingFrom_get (i : Nat) (l : List Trace) (j : Nat)
    (hj : j < (mappingFrom i l).length) (hj2 : j < l.length) :
    (mappingFrom i l).get ⟨j, hj⟩ = ⟨(l.get ⟨j, hj2⟩).id, "multi_turn", i + j⟩ := by
  induction l generalizing i j with
  | nil => exact absurd hj2 (by simp)
  | cons t ts ih =>
    cases j with
    | zero => rfl
    | succ j2 =>
      have := ih (i + 1) j2 (by simpa [mappingFrom] using hj)
        (by simpa using hj2)
      simpa [mappingFrom, Nat.add_assoc, Nat.add_comm 1 j2] using this

/-- Closed form of the process_traces loop when every trace extracts: the
accumulated samples are extended by one sample per kept trace and the mapping
by one entry per kept trace with consecutive indices continuing at the current
sample count. -/
theorem processTracesLoop_closed (fetch : String → Except PyErr (List Observation))
    (tcs : List TestCase) :
    ∀ ts : List Trace, (∀ t ∈ ts, ∃ c, extract_span_components fetch t = .ok c) →
    ∀ (samples : List MultiTurnSample) (mapping : List MappingEntry),
      processTracesLoop fetch tcs ts samples mapping =
        .ok (samples ++ (ts.filter (traceKept fetch)).map (sampleOfTrace fetch tcs),
             mapping ++ mappingFrom samples.length (ts.filter (traceKept fetch))) := by
  intro ts
  induction ts with
  | nil => intro _ samples mapping; simp [processTracesLoop, mappingFrom]
  | cons t ts ih =>
    intro h samples mapping
    obtain ⟨c, hc⟩ := h t (by simp)
    have ih2 := ih fun t2 ht2 => h t2 (by simp [ht2])
    have hkept : traceKept fetch t = !c.user_inputs.isEmpty := by
      simp [traceKept, hc]
    have hsample : sampleOfTrace fetch tcs t =
        ⟨buildMessages c.user_inputs c.agent_responses,
         match_trace_to_test_case (c.user_inputs.headD "") tcs⟩ := by
      simp [sampleOfTrace, hc]
    by_cases hemp : c.user_inputs.isEmpty
    · simp only [processTracesLoop, hc, hemp, if_true]
      rw [ih2]
      simp [List.filter_cons, hkept, hemp]
    · simp only [processTracesLoop, hc, hemp, if_false]
      simp [List.filter_cons, hkept, hemp, hsample, mappingFrom, ih2,
        List.append_assoc, Nat.add_comm]

/-- C1: whenever extraction succeeds on every trace of the batch (see C7 for
when it does), process_traces returns without error exactly one sample and one
mapping entry (the trace id, the type multi_turn, and the index of the sample
at the time of append) per trace whose derived user_inputs is non-empty, in
batch order, and nothing at all for a trace whose derived user_inputs is
empty; consequently the sample and mapping sequences have equal length and the
j-th mapping entry has index j. -/
theorem C1_process_traces_shape (fetch : String → Except PyErr (List Observation))
    (tcs : List TestCase) (traces : List Trace)
    (h : ∀ t ∈ traces, ∃ c, extract_span_components fetch t = .ok c) :
    process_traces fetch tcs traces =
      .ok ((traces.filter (traceKept fetch)).map (sampleOfTrace fetch tcs),
           mappingFrom 0 (traces.filter (traceKept fetch)))
    ∧ (mappingFrom 0 (traces.filter (traceKept fetch))).length =
        ((traces.filter (traceKept fetch)).map (sampleOfTrace fetch tcs)).length
    ∧ ∀ (j : Nat) (hj : j < (mappingFrom 0 (traces.filter (traceKept fetch))).length)
        (hj2 : j < (traces.filter (traceKept fetch)).length),
        (mappingFrom 0 (traces.filter (traceKept fetch))).get ⟨j, hj⟩ =
          ⟨((traces.filter (traceKept fetch)).get ⟨j, hj2⟩).id, "multi_turn", j⟩ := by
  refine ⟨?_, ?_, ?_⟩
  · have := processTracesLoop_closed fetch tcs traces h [] []
    simpa [process_traces] using this
  · simp [mappingFrom_length]
  · intro j hj hj2
    simpa using mappingFrom_get 0 (traces.filter (traceKept fetch)) j hj hj2

/-- Witness for C1: a two-trace batch of one trace with user input and one
without yields one sample and one mapping entry of index 0. -/
theorem C1_process_traces_shape_witness :
    process_traces (fun _ => .ok ([] : List Observation)) []
        [⟨"t1", some (.PStr "hi"), some (.PStr "yo"), [], none⟩,
         ⟨"t2", none, none, [], none⟩] =
      .ok ([⟨[⟨"user", "hi"⟩, ⟨"assistant", "yo"⟩], none⟩],
           [⟨"t1", "multi_turn", 0⟩]) := by
  have h := C1_process_traces_shape (fun _ => .ok ([] : List Observation)) []
      [⟨"t1", some (.PStr "hi"), some (.PStr "yo"), [], none⟩,
       ⟨"t2", none, none, [], none⟩] (by
    intro t ht
    rcases List.mem_cons.mp ht with h1 | h2
    · exact ⟨⟨["hi"], ["yo"], [], [], .PList []⟩, by rw [h1]; rfl⟩
    · rw [List.mem_singleton] at h2
      exact ⟨⟨[], [], [], [], .PList []⟩, by rw [h2]; rfl⟩)
  rw [h.1]
  rfl

/-- One filing step leaves symbol and total_filings unchanged and either
leaves both counters unchanged, or increments downloaded by one and uploaded
by at most one. -/
theorem process_filing_counters (download : String → Filing → Option String)
    (upload : String → String → String → String → Bool)
    (bucket symbol : String) (r : CompanyResult) (filing : Filing)
    (r2 : CompanyResult)
    (h : process_filing download upload bucket symbol r filing = .ok r2) :
    r2.symbol = r.symbol ∧ r2.total_filings = r.total_filings ∧
    (r2.downloaded = r.downloaded ∧ r2.uploaded = r.uploaded ∨
     r2.downloaded = r.downloaded + 1 ∧
       (r2.uploaded = r.uploaded ∨ r2.uploaded = r.uploaded + 1)) := by
  simp only [process_filing] at h
  repeat' split at h
  all_goals first
    | (injection h with h2; subst h2; simp)
    | injection h

/-- The filing loop preserves uploaded ≤ downloaded, bounds the growth of
downloaded by the number of filings, and never changes total_filings. -/
theorem processFilings_invariant (download : String → Filing → Option String)
    (upload : String → String → String → String → Bool)
    (bucket symbol : String) :
    ∀ (fs : List Filing) (r r2 : CompanyResult),
      processFilings download upload bucket symbol fs r = .ok r2 →
      r.uploaded ≤ r.downloaded →
      r2.uploaded ≤ r2.downloaded ∧ r2.downloaded ≤ r.downloaded + fs.length ∧
      r2.total_filings = r.total_filings := by
  intro fs
  induction fs with
  | nil =>
    intro r r2 h hle
    injection h with h2
    subst h2
    exact ⟨hle, Nat.le_refl _, rfl⟩
  | cons f fs ih =>
    intro r r2 h hle
    simp only [processFilings] at h
    rcases hf : process_filing download upload bucket symbol r f with e | r1 <;>
      rw [hf] at h
    · exact absurd h (by simp)
    · obtain ⟨hsym, htot, hcase⟩ :=
        process_filing_counters download upload bucket symbol r f r1 hf
      have hle1 : r1.uploaded ≤ r1.downloaded := by
        rcases hcase with ⟨hd, hu⟩ | ⟨hd, hu | hu⟩ <;> omega
      obtain ⟨h1, h2, h3⟩ := ih r1 r2 h hle1
      refine ⟨h1, ?_, h3.trans htot⟩
      rcases hcase with ⟨hd, _⟩ | ⟨hd, _⟩ <;> simp only [List.length_cons] <;> omega

/-- C10: whenever process_company returns a result, its counters satisfy
0 ≤ uploaded ≤ downloaded ≤ total_filings, and total_filings equals the number
of filings handed to it: downloaded grows at most once per filing and uploaded
only inside a filing's successful-download branch. -/
theorem C10_process_company_counter_bounds
    (download : String → Filing → Option String)
    (upload : String → String → String → String → Bool)
    (bucket symbol : String) (filings : List Filing) (r : CompanyResult)
    (h : process_company download upload bucket symbol filings = .ok r) :
    r.uploaded ≤ r.downloaded ∧ r.downloaded ≤ r.total_filings ∧
    r.total_filings = filings.length := by
  simp only [process_company] at h
  split at h
  · injection h with h2
    subst h2
    simp_all [List.isEmpty_iff]
  · obtain ⟨h1, h2, h3⟩ := processFilings_invariant download upload bucket symbol
      filings ⟨symbol, filings.length, 0, 0, []⟩ r h (Nat.le_refl 0)
    simp only at h2 h3
    exact ⟨h1, by omega, h3⟩

/-- Witness for C10 at one filing that downloads and uploads. -/
theorem C10_process_company_counter_bounds_witness :
    (⟨"SYM", 1, 1, 1, []⟩ : CompanyResult).uploaded ≤
        (⟨"SYM", 1, 1, 1, []⟩ : CompanyResult).downloaded
    ∧ (⟨"SYM", 1, 1, 1, []⟩ : CompanyResult).downloaded ≤
        (⟨"SYM", 1, 1, 1, []⟩ : CompanyResult).total_filings
    ∧ (⟨"SYM", 1, 1, 1, []⟩ : CompanyResult).total_filings =
        [(⟨some "u", some "2020-12-31", some "acc"⟩ : Filing)].length :=
  C10_process_company_counter_bounds (fun _ _ => some "p") (fun _ _ _ _ => true)
    "bucket" "SYM" [⟨some "u", some "2020-12-31", some "acc"⟩]
    ⟨"SYM", 1, 1, 1, []⟩ rfl

/-- Updating a key makes it present with the new value. -/
theorem getEntry_setEntry_self (m : List (String × CompanyResult)) (k : String)
    (v : CompanyResult) : getEntry (setEntry m k v) k = some v := by
  induction m with
  | nil => simp [setEntry, getEntry]
  | cons e rest ih =>
    by_cases he : e.1 = k
    · simp [setEntry, getEntry, he]
    · simp [setEntry, getEntry, he, ih]

/-- Updating one key leaves the lookup of any other key unchanged. -/
theorem getEntry_setEntry_other (m : List (String × CompanyResult))
    (k k2 : String) (v : CompanyResult) (h : k2 ≠ k) :
    getEntry (setEntry m k v) k2 = getEntry m k2 := by
  have hne : ¬ k = k2 := fun hh => h hh.symm
  induction m with
  | nil => simp [setEntry, getEntry, hne]
  | cons e rest ih =>
    by_cases he : e.1 = k
    · simp [setEntry, getEntry, he, hne]
    · simp [setEntry, getEntry, he, ih]

/-- Every symbol visited by the per-symbol loop ends up with its outcome entry
in company_results; symbols not visited keep their prior entry. -/
theorem processCompaniesLoop_getEntry (download : String → Filing → Option String)
    (upload : String → String → String → String → Bool)
    (queryApi : String → Except PyErr (List Filing)) (bucket : String) :
    ∀ (symbols : List String) (o : OverallResults) (symbol : String),
      getEntry (processCompaniesLoop download upload queryApi bucket
          symbols o).company_results symbol =
        if symbol ∈ symbols
        then some (companyOutcome download upload queryApi bucket symbol)
        else getEntry o.company_results symbol := by
  intro symbols
  induction symbols with
  | nil => intro o symbol; simp [processCompaniesLoop]
  | cons s rest ih =>
    intro o symbol
    simp only [processCompaniesLoop]
    rw [ih]
    by_cases hmem : symbol ∈ rest
    · simp [hmem]
    · simp only [hmem, if_false, List.mem_cons, or_false]
      by_cases hs : symbol = s
      · subst hs
        simp only [if_pos rfl, companyOutcome]
        rcases hrun : runCompany download upload queryApi bucket symbol with e | results <;>
          simp [hrun, getEntry_setEntry_self]
      · simp only [hs, if_false]
        rcases hrun : runCompany download upload queryApi bucket s with e | results <;>
          simp [hrun, getEntry_setEntry_other _ _ _ _ hs]

/-- C8: every symbol of the batch receives an entry of company_results keyed
by itself — one company failing never prevents sibling symbols from being
processed and recorded — and when running that symbol raised, its entry is the
zero-count record carrying the handler's single error message. -/
theorem C8_per_company_isolation (download : String → Filing → Option String)
    (upload : String → String → String → String → Bool)
    (queryApi : String → Except PyErr (List Filing)) (bucket : String)
    (symbols : List String) (symbol : String) (hmem : symbol ∈ symbols) :
    getEntry (process_companies download upload queryApi bucket
        symbols).company_results symbol =
      some (companyOutcome download upload queryApi bucket symbol)
    ∧ ∀ e : PyErr, runCompany download upload queryApi bucket symbol = .error e →
        getEntry (process_companies download upload queryApi bucket
            symbols).company_results symbol =
          some ⟨symbol, 0, 0, 0,
            ["Error processing company " ++ symbol ++ ": " ++ pyErrMsg e]⟩ := by
  have h := processCompaniesLoop_getEntry download upload queryApi bucket symbols
    ⟨0, 0, 0, 0, []⟩ symbol
  rw [if_pos hmem] at h
  refine ⟨h, ?_⟩
  intro e he
  have h2 : companyOutcome download upload queryApi bucket symbol =
      ⟨symbol, 0, 0, 0,
       ["Error processing company " ++ symbol ++ ": " ++ pyErrMsg e]⟩ := by
    simp [companyOutcome, he]
  rw [h2] at h
  exact h

/-- Witness for C8: a batch of two symbols where the first company's filings
query raises records the error entry for the first and still processes the
second. -/
theorem C8_per_company_isolation_witness :
    getEntry (process_companies (fun _ _ => some "p") (fun _ _ _ _ => true)
        (fun sym => if sym = "BAD" then .error (.apiError "boom")
          else .ok [⟨some "u", some "2020-12-31", some "acc"⟩]) "bucket"
        ["BAD", "GOOD"]).company_results "BAD" =
      some ⟨"BAD", 0, 0, 0,
        ["Error processing company " ++ "BAD" ++ ": " ++ pyErrMsg (.apiError "boom")]⟩
    ∧ getEntry (process_companies (fun _ _ => some "p") (fun _ _ _ _ => true)
        (fun sym => if sym = "BAD" then .error (.apiError "boom")
          else .ok [⟨some "u", some "2020-12-31", some "acc"⟩]) "bucket"
        ["BAD", "GOOD"]).company_results "GOOD" =
      some (companyOutcome (fun _ _ => some "p") (fun _ _ _ _ => true)
        (fun sym => if sym = "BAD" then .error (.apiError "boom")
          else .ok [⟨some "u", some "2020-12-31", some "acc"⟩]) "bucket" "GOOD") :=
  ⟨(C8_per_company_isolation (fun _ _ => some "p") (fun _ _ _ _ => true)
      (fun sym => if sym = "BAD" then .error (.apiError "boom")
        else .ok [⟨some "u", some "2020-12-31", some "acc"⟩]) "bucket"
      ["BAD", "GOOD"] "BAD" (by simp)).2 (.apiError "boom") rfl,
   (C8_per_company_isolation (fun _ _ => some "p") (fun _ _ _ _ => true)
      (fun sym => if sym = "BAD" then .error (.apiError "boom")
        else .ok [⟨some "u", some "2020-12-31", some "acc"⟩]) "bucket"
      ["BAD", "GOOD"] "GOOD" (by simp)).1⟩

end LangfuseEval
